import Mathlib

/-!
# node-vsphere `lib/client.js`: a shallow embedding

The file embeds the callbacks of `Client` (`lib/client.js`) as pure functions.
Every asynchronous callback of the source becomes a function from the state
captured by its closure and the delivered event to the new state; the remote
commands a callback issues through `runCommand` and the events it emits on its
`EventEmitter` are appended to logs kept in that state.  A JavaScript exception
raised inside a callback is an explicit outcome (`Run.threw`) that keeps the
state reached at the throw, because the commands issued before it stay issued.
-/

namespace NodeVsphere

/-! ## JavaScript values and control flow -/

/-- Exceptions the embedded code can raise. -/
inductive JsError where
  /-- Property access on `undefined` (`Cannot read property ... of undefined`). -/
  | typeError (what : String)
  /-- Node's `EventEmitter` raises when `'error'` is emitted and no listener is registered. -/
  | unhandledError (payload : String)
  deriving DecidableEq, Repr

/-- The JavaScript values a property update can carry in `changeSet.val`, and that the
accumulators `toCompare` and `finalReturnVals` can hold. -/
inductive JsVal where
  /-- The value `undefined` (a missing `val` field). -/
  | undefined
  /-- A primitive string; its `'$value'` property is `undefined`. -/
  | str (s : String)
  /-- A parsed SOAP element `{ attributes: ..., '$value': v }`. -/
  | node (dollarValue : String)
  deriving DecidableEq, Repr

/-- The result of `x['$value']`: a `TypeError` on `undefined`, `undefined` (here `none`) on a
primitive string, the text of a parsed element. -/
def JsVal.dollarValue : JsVal → Except JsError (Option String)
  | .undefined => .error (.typeError "$value")
  | .str _ => .ok none
  | .node v => .ok (some v)

/-- A response field that the SOAP layer delivers as nothing, as one object, or as an array. -/
inductive Field (α : Type) where
  | absent
  | one (a : α)
  | many (l : List α)
  deriving Repr

/-- The idiom `if( ! _.isArray(x) ) { x = [ x ]; }`: an array is kept, anything else is wrapped,
an absent field becoming the one-element array `[undefined]` (here `[none]`). -/
def Field.toArray {α : Type} : Field α → List (Option α)
  | .absent => [none]
  | .one a => [some a]
  | .many l => l.map some

/-- The test `_.isEmpty(x)` on a field whose objects, when present, have own properties. -/
def Field.isEmpty {α : Type} : Field α → Bool
  | .absent => true
  | .one _ => false
  | .many l => l.isEmpty

/-- Outcome of running a callback from a state: it ran to its end, or it raised an exception
at the given state. -/
inductive Run (σ : Type) where
  | done (s : σ)
  | threw (s : σ) (e : JsError)
  deriving Repr

/-- The state a callback leaves behind, however it ended. -/
def Run.state {σ : Type} : Run σ → σ
  | .done s => s
  | .threw s _ => s

/-- The exception a callback raised, if any. -/
def Run.error {σ : Type} : Run σ → Option JsError
  | .done _ => none
  | .threw _ e => some e

/-- Sequencing of two pieces of a callback: an exception skips what follows. -/
def Run.andThen {σ : Type} (r : Run σ) (f : σ → Run σ) : Run σ :=
  match r with
  | .done s => f s
  | .threw s e => .threw s e

/-- The loop `_.forEach(array, callback)`: the callback runs on every element in order, and an
exception raised by it ends the loop. -/
def forEach {σ α : Type} (f : σ → α → Run σ) : σ → List α → Run σ
  | s, [] => .done s
  | s, a :: rest =>
    match f s a with
    | .done s1 => forEach f s1 rest
    | .threw s1 e => .threw s1 e

/-- Whether the first list starts with the second. -/
def startsWith : List Char → List Char → Bool
  | _, [] => true
  | [], _ :: _ => false
  | c :: cs, p :: ps => c == p && startsWith cs ps

/-- Whether `p` occurs as a contiguous block of `s`. -/
def occursIn (p : List Char) : List Char → Bool
  | [] => startsWith [] p
  | c :: cs => startsWith (c :: cs) p || occursIn p cs

/-- The test `name.indexOf(prop) >= 0` of lines 305 and 315. -/
def indexOfGe0 (name prop : String) : Bool :=
  occursIn prop.toList name.toList

/-- A plain JavaScript object with string keys, in insertion order. -/
abbrev JsObject := List (String × JsVal)

/-- The assignment `o[k] = v`: an existing key keeps its place, a new key goes last. -/
def objAssign : JsObject → String → JsVal → JsObject
  | [], k, v => [(k, v)]
  | (k1, v1) :: rest, k, v =>
    if k1 = k then (k, v) :: rest else (k1, v1) :: objAssign rest k v

/-- The read `o[k]`, `undefined` for a key that is not there. -/
def objGet : JsObject → String → JsVal
  | [], _ => .undefined
  | (k1, v1) :: rest, k => if k1 = k then v1 else objGet rest k

/-- Whether `k` is a key of `o`. -/
def objHas : JsObject → String → Bool
  | [], _ => false
  | (k1, _) :: rest, k => decide (k1 = k) || objHas rest k

/-! ## Data model of the property collector responses -/

/-- A managed object reference `{ attributes: { type: ... }, '$value': ... }`. -/
structure MORef where
  type : String
  value : String
  deriving DecidableEq, Repr

/-- One entry of `objSet.changeSet`. -/
structure PropertyChange where
  name : String
  op : String
  val : JsVal
  deriving Repr

/-- One entry of `filterSet.objectSet`. -/
structure ObjectUpdate where
  kind : String
  changeSet : Field PropertyChange
  deriving Repr

/-- One entry of `returnval.filterSet`. -/
structure FilterUpdate where
  objectSet : Field ObjectUpdate
  deriving Repr

/-- The `returnval` of `WaitForUpdatesEx` when it is there. -/
structure UpdateSet where
  version : String
  filterSet : Field FilterUpdate
  deriving Repr

/-- The result event of `WaitForUpdatesEx`; `returnval` is absent when nothing changed. -/
structure WaitResult where
  returnval : Option UpdateSet
  deriving Repr

/-- Remote commands issued through `runCommand`. -/
inductive Command where
  | createContainerView (container : MORef) (type : String)
  | retrievePropertiesEx
  | createFilter (obj : MORef) (pathSet : List String)
  | waitForUpdatesEx (version : String)
  | destroyPropertyFilter (filter : MORef)
  | powerOnVM_Task (target : MORef)
  deriving DecidableEq, Repr

/-- Events an `EventEmitter` of the client delivers to its listeners. -/
inductive Event (α : Type) where
  | result (v : α)
  | error (e : String)
  deriving DecidableEq, Repr

/-! ## `waitForValues` (lines 207-371) -/

/-- An argument of `waitForValues` that may be a bare value or an array. -/
inductive Arg where
  | one (s : String)
  | many (l : List String)
  deriving Repr

/-- Lines 214-221: `if( ! _.isArray(x) ) { x = [ x ]; }`. -/
def Arg.toArray : Arg → List String
  | .one s => [s]
  | .many l => l

/-- What the closure of `waitForUpdates` reads without changing it: the three normalised
argument arrays and `filterSpecRef`, the `returnval` of `CreateFilter` (line 265). -/
structure PollParams where
  filterProps : List String
  endWaitProps : List String
  expectedVals : List String
  filterSpecRef : MORef
  deriving Repr

/-- The variables of lines 266-271 that the callbacks change, with the log of the commands the
poller has issued and of the events it has emitted on the emitter `waitForValues` returned
(oldest first). -/
structure PollState where
  version : String
  found : Bool
  toCompare : JsObject
  finalReturnVals : JsObject
  issued : List Command
  emitted : List (Event JsObject)
  deriving Repr

/-- Line 262: the command `waitForValues` issues before it returns its emitter. -/
def waitForValues (obj : MORef) (filterProps : Arg) : Command :=
  .createFilter obj filterProps.toArray

/-- Lines 273-275: a call of `waitForUpdates()` issues `WaitForUpdatesEx` with the value the
variable `version` has at the call. -/
def waitForUpdates (s : PollState) : PollState :=
  { s with issued := s.issued ++ [.waitForUpdatesEx s.version] }

/-- Lines 263-273 and 361: the result callback of `CreateFilter` sets up the variables and
calls `waitForUpdates` once. -/
def onCreateFilterResult : PollState :=
  waitForUpdates
    { version := "", found := false, toCompare := [], finalReturnVals := [],
      issued := [], emitted := [] }

/-- Lines 304-312 and 314-322: for every `prop` whose text occurs in the name of the change,
`acc[prop]` becomes `""` for a removal and `changeSet.val` otherwise. -/
def recordProps (props : List String) (c : PropertyChange) (acc : JsObject) : JsObject :=
  props.foldl
    (fun o prop =>
      if indexOfGe0 c.name prop then
        objAssign o prop (if c.op = "remove" then .str "" else c.val)
      else o)
    acc

/-- Lines 302-323: the callback over `changeSetArray`. -/
def onChangeSet (p : PollParams) (s : PollState) : Option PropertyChange → Run PollState
  | none => .threw s (.typeError "name")
  | some c =>
    .done { s with
      toCompare := recordProps p.endWaitProps c s.toCompare
      finalReturnVals := recordProps p.filterProps c s.finalReturnVals }

/-- Lines 293-325: the callback over `objSetArray`; only the kinds `modify`, `enter` and
`leave` are looked at. -/
def onObjSet (p : PollParams) (s : PollState) : Option ObjectUpdate → Run PollState
  | none => .threw s (.typeError "kind")
  | some o =>
    if o.kind = "modify" ∨ o.kind = "enter" ∨ o.kind = "leave" then
      forEach (onChangeSet p) s o.changeSet.toArray
    else .done s

/-- The test `expectedVals.indexOf(x) > -1` for `x = toCompare[key]['$value']`; the expected
values are strings, so `undefined` is never among them. -/
def expectedHas (expectedVals : List String) : Option String → Bool
  | none => false
  | some v => decide (v ∈ expectedVals)

/-- The variables of the loop of lines 327-341. -/
structure Scan where
  st : PollState
  compared : Nat
  deriving Repr

/-- Lines 331-339: the body of `for( var key in toCompare )`, `n` being
`_.keysIn( toCompare ).length`. -/
def scanKey (p : PollParams) (n : Nat) (sc : Scan) (entry : String × JsVal) : Run Scan :=
  match entry.2.dollarValue with
  | .error e => .threw sc e
  | .ok dv =>
    let found1 := if expectedHas p.expectedVals dv && !sc.st.found then true else sc.st.found
    let st1 := { sc.st with found := found1 }
    let compared1 := sc.compared + 1
    .done
      { st := if compared1 = n ∧ found1 = false then waitForUpdates st1 else st1
        compared := compared1 }

/-- Lines 327-341.  The guard of the `while` is tested with `compared = 0`; one pass of the
`for` raises `compared` to the number of keys, so the guard fails after it and the `while` is
this conditional. -/
def terminationCheck (p : PollParams) (s : PollState) : Run PollState :=
  if 0 < s.toCompare.length ∧ s.found = false then
    match forEach (scanKey p s.toCompare.length) { st := s, compared := 0 } s.toCompare with
    | .done sc => .done sc.st
    | .threw sc e => .threw sc.st e
  else .done s

/-- Lines 343-352: `DestroyPropertyFilter` is issued when `found` holds. -/
def destroyIfFound (p : PollParams) (s : PollState) : PollState :=
  if s.found then
    { s with issued := s.issued ++ [.destroyPropertyFilter p.filterSpecRef] }
  else s

/-- Lines 288-354: the callback over `filterSetArray`: record the changes, scan `toCompare`,
destroy the filter when `found` holds. -/
def onFilterSet (p : PollParams) (s : PollState) : Option FilterUpdate → Run PollState
  | none => .threw s (.typeError "objectSet")
  | some fs =>
    ((forEach (onObjSet p) s fs.objectSet.toArray).andThen (terminationCheck p)).andThen
      (fun s1 => .done (destroyIfFound p s1))

/-- Line 277: `_.isEmpty(result.returnval) || _.isEmpty(result.returnval.filterSet)`. -/
def resultIsEmpty (r : WaitResult) : Bool :=
  match r.returnval with
  | none => true
  | some us => us.filterSet.isEmpty

/-- Lines 276-355: the result callback of `WaitForUpdatesEx`.  The branch of line 277 calls
`waitForUpdates()` and does not return, so lines 281-354 run after it as well. -/
def onWaitResult (p : PollParams) (s : PollState) (r : WaitResult) : Run PollState :=
  let s1 := if resultIsEmpty r then waitForUpdates s else s
  match r.returnval with
  | none => .threw s1 (.typeError "version")
  | some us => forEach (onFilterSet p) { s1 with version := us.version } us.filterSet.toArray

/-- Lines 345-348: the result callback of `DestroyPropertyFilter`. -/
def onDestroyResult (s : PollState) : PollState :=
  { s with emitted := s.emitted ++ [.result s.finalReturnVals] }

/-- Lines 349-351, 356-359 and 364-367: the error callbacks of `DestroyPropertyFilter`,
`WaitForUpdatesEx` and `CreateFilter` all emit the error on the emitter of `waitForValues`. -/
def onPollCommandError (s : PollState) (err : String) : PollState :=
  { s with emitted := s.emitted ++ [.error err] }

/-- The number of `DestroyPropertyFilter` commands in a log. -/
def destroyCalls (l : List Command) : Nat :=
  (l.filter (fun c => match c with | .destroyPropertyFilter _ => true | _ => false)).length

/-- The result events in a log of emitted events. -/
def completions {α : Type} (l : List (Event α)) : List α :=
  l.filterMap (fun e => match e with | .result v => some v | .error _ => none)

/-- A response with the given version token whose filter sets each hold one object update of
kind `modify` with the listed changes. -/
def updateOf (version : String) (sets : List (List PropertyChange)) : WaitResult :=
  { returnval := some
      { version := version
        filterSet := .many (sets.map (fun cs =>
          { objectSet := .one { kind := "modify", changeSet := .many cs } })) } }

/-- The change that assigns the parsed element with text `v` to the property `name`. -/
def assign (name v : String) : PropertyChange :=
  { name := name, op := "assign", val := .node v }

/-- The arguments `powerOnVMByMORef` passes to `waitForValues` on lines 392 and 418, after
normalisation, with the filter `CreateFilter` returned. -/
def taskParams (filter : MORef) : PollParams :=
  { filterProps := (Arg.many ["info.state", "info.error"]).toArray
    endWaitProps := (Arg.one "state").toArray
    expectedVals := (Arg.many ["success", "error"]).toArray
    filterSpecRef := filter }

/-- The response that reports `info.state = v` in one filter set, under version token `tok`. -/
def stateUpdate (tok v : String) : WaitResult :=
  updateOf tok [[assign "info.state" v]]

/-- The state after the result callback of `WaitForUpdatesEx` has handled the given responses
one after the other. -/
def pollRun (p : PollParams) : PollState → List WaitResult → PollState
  | s, [] => s
  | s, r :: rest => pollRun p (onWaitResult p s r).state rest

/-- The poller state after the task poll has handled the prior reports of `info.state`, given
as pairs of version token and value. -/
def priorState (f : MORef) (prior : List (String × String)) : PollState :=
  pollRun (taskParams f) onCreateFilterResult (prior.map (fun e => stateUpdate e.1 e.2))

/-- The state the result callback leaves when a task poll handles a report of
`info.state = v` under token `tok` from the state `s`. -/
def afterStateUpdate (f : MORef) (s : PollState) (tok v : String) : PollState :=
  { version := tok
    found := decide (v ∈ ["success", "error"])
    toCompare := [("state", .node v)]
    finalReturnVals := [("info.state", .node v)]
    issued := s.issued ++
      [if v ∈ ["success", "error"] then Command.destroyPropertyFilter f
        else Command.waitForUpdatesEx tok]
    emitted := s.emitted }

/-- Whether an entry of `toCompare` passes the test of line 332. -/
def entryMatches (p : PollParams) (entry : String × JsVal) : Bool :=
  match entry.2.dollarValue with
  | .ok dv => expectedHas p.expectedVals dv
  | .error _ => false

/-- Whether the read `toCompare[key]['$value']` succeeds on the entry. -/
def entryReadable (entry : String × JsVal) : Bool :=
  match entry.2.dollarValue with
  | .ok _ => true
  | .error _ => false

/-- The state the scan of lines 327-341 leaves when every read succeeds. -/
def afterScan (p : PollParams) (s : PollState) (l : List (String × JsVal)) : PollState :=
  if (s.found || l.any (entryMatches p)) = false then
    waitForUpdates { s with found := s.found || l.any (entryMatches p) }
  else { s with found := s.found || l.any (entryMatches p) }

/-- The variables a callback that only records changes leaves alone. -/
def SameControl (s s1 : PollState) : Prop :=
  s1.version = s.version ∧ s1.found = s.found ∧ s1.issued = s.issued ∧ s1.emitted = s.emitted

/-! ## `getMORefsInContainerByTypeAndPropertyArray` (lines 53-155) -/

/-- The third argument `propertyArray`: absent, one path, or an array of paths. -/
inductive Selector where
  | absent
  | path (p : String)
  | paths (l : List String)
  deriving DecidableEq, Repr

/-- The object built on lines 71-93; `pathSet` is `none` when the literal has no such key. -/
structure PropertySpec where
  xsiType : String
  type : String
  all : Bool
  pathSet : Option (List String)
  deriving DecidableEq, Repr

/-- Lines 71-93 of `getMORefsInContainerByTypeAndPropertyArray`.  The first test is
`propertyArray && typeof propertyArray === 'object' && propertyArray.length > 0`, the second
`propertyArray && typeof propertyArray === 'string'`, where the empty string is falsy. -/
def getMORefsInContainerByTypeAndPropertyArray_propertySpec (type : String) :
    Selector → PropertySpec
  | .paths l =>
    if l.length > 0 then
      { xsiType := "PropertySpec", type := type, all := false, pathSet := some l }
    else
      { xsiType := "PropertySpec", type := type, all := true, pathSet := none }
  | .path p =>
    if p ≠ "" then
      { xsiType := "PropertySpec", type := type, all := false, pathSet := some [p] }
    else
      { xsiType := "PropertySpec", type := type, all := true, pathSet := none }
  | .absent =>
    { xsiType := "PropertySpec", type := type, all := true, pathSet := none }

/-! ## `getVMinContainerPowerState` (lines 162-199) -/

/-- The fields of `vm.propSet.val` that line 184 and 185 read: `config.name` and
`runtime.powerState`. -/
structure VmSummary where
  configName : String
  runtimePowerState : String
  deriving DecidableEq, Repr

/-- One entry of `result.returnval.objects`, with the fields lines 183-185 read. -/
structure ObjectContent where
  obj : MORef
  propSetVal : VmSummary
  deriving DecidableEq, Repr

/-- The result event of the bulk retrieval: an object without own properties, or
`{ returnval: { objects: data } }` with `data` an array. -/
inductive RetrieveResult where
  | empty
  | objects (data : List ObjectContent)
  deriving DecidableEq, Repr

/-- One entry of the array `getVMinContainerPowerState` emits (lines 158-160). -/
structure PowerStateEntry where
  obj : MORef
  name : String
  powerState : String
  deriving DecidableEq, Repr

/-- Lines 182-186: the object pushed for one virtual machine. -/
def powerStateEntry (vm : ObjectContent) : PowerStateEntry :=
  { obj := vm.obj, name := vm.propSetVal.configName,
    powerState := vm.propSetVal.runtimePowerState }

/-- Lines 181-190: the body of `_.forEach(data, ...)`, on the pair of `resultArray` and the
events emitted so far; `n` is `data.length`. -/
def pushPowerState (n : Nat)
    (acc : List PowerStateEntry × List (Event (List PowerStateEntry)))
    (vm : ObjectContent) : List PowerStateEntry × List (Event (List PowerStateEntry)) :=
  let resultArray := acc.1 ++ [powerStateEntry vm]
  (resultArray, if resultArray.length = n then acc.2 ++ [.result resultArray] else acc.2)

/-- Lines 169-191: the result callback `getVMinContainerPowerState` registers on the bulk
retrieval; its value is the list of events emitted on the returned emitter. -/
def getVMinContainerPowerState_onResult :
    RetrieveResult → List (Event (List PowerStateEntry))
  | .empty => [.result []]
  | .objects data => (data.foldl (pushPowerState data.length) ([], [])).2

/-- Lines 192-195: the error callback forwards the error. -/
def getVMinContainerPowerState_onError (err : String) : List (Event (List PowerStateEntry)) :=
  [.error err]

/-! ## `powerOnVMByMORef` (lines 373-443) -/

/-- The argument `MORefs`: absent, one reference, or an array of references. -/
inductive Targets where
  | absent
  | single (ref : MORef)
  | list (refs : List MORef)
  deriving DecidableEq, Repr

/-- What a call of `powerOnVMByMORef` has done when control goes back to the caller. -/
structure SyncCall where
  /-- Commands issued through `runCommand`. -/
  issued : List Command
  /-- The exception the call raised, if any. -/
  thrown : Option JsError
  /-- Whether the caller was handed the emitter (`return emitter`). -/
  returnedEmitter : Bool
  deriving DecidableEq, Repr

/-- The call `emitter.emit('error', payload)` of Node's `EventEmitter`: with no listener for
`'error'` registered, it raises. -/
def emitError (hasErrorListener : Bool) (payload : String) : Option JsError :=
  if hasErrorListener then none else some (.unhandledError payload)

/-- Lines 378-381: the emitter was created on line 376 and has no listener yet; after the
`emit`, the bare `return` hands nothing to the caller. -/
def powerOnVMByMORef_noTargets : SyncCall :=
  { issued := [], thrown := emitError false "No ManagedObjectReference(s) given!",
    returnedEmitter := false }

/-- Lines 413-414: the callback of `_.forEach(MORefs, function(MORef) ...)` is a strict-mode
function called without a receiver, so its `this` is `undefined` and `this.runCommand` raises
before any command is issued; the loop ends at its first element. -/
def powerOnVMByMORef_forEachBody (_ref : MORef) (issued : List Command) :
    Run (List Command) :=
  .threw issued (.typeError "runCommand")

/-- The synchronous part of `powerOnVMByMORef`.  Line 378 sends an absent or empty argument to
the first branch; line 384 (`MORefs && !MORefs.length`) tells one reference from an array. -/
def powerOnVMByMORef : Targets → SyncCall
  | .absent => powerOnVMByMORef_noTargets
  | .list [] => powerOnVMByMORef_noTargets
  | .single ref => { issued := [.powerOnVM_Task ref], thrown := none, returnedEmitter := true }
  | .list (r :: rest) =>
    match forEach (fun issued ref => powerOnVMByMORef_forEachBody ref issued) [] (r :: rest) with
    | .done issued => { issued := issued, thrown := none, returnedEmitter := true }
    | .threw issued e => { issued := issued, thrown := some e, returnedEmitter := false }

/-- What the emitter of `powerOnVMByMORef` carries on its failure path: a transport error, or
the value of `info.error`. -/
inductive Failure where
  | transport (err : String)
  | taskError (v : JsVal)
  deriving DecidableEq, Repr

/-- Events on the emitter `powerOnVMByMORef` returns. -/
inductive Outcome (α : Type) where
  | result (v : α)
  | error (e : Failure)
  deriving DecidableEq, Repr

/-- Lines 386-408, one target: the listeners registered on `PowerOnVM_Task`.  A result starts
`waitForValues` (which issues `CreateFilter` for the task), an error is emitted on the
returned emitter. -/
def powerOn_onTaskEvent : Event MORef → List Command × List (Outcome JsVal)
  | .result taskMORef => ([waitForValues taskMORef (.many ["info.state", "info.error"])], [])
  | .error err => ([], [.error (.transport err)])

/-- Lines 392-403, one target: the listeners registered on the emitter of `waitForValues`.
The result listener tests `result['info.error'] == undefined`; the error listener only calls
`console.error`. -/
def powerOn_onPollEvent : Event JsObject → List (Outcome JsVal)
  | .result result =>
    if objGet result "info.error" = .undefined then [.result (objGet result "info.state")]
    else [.error (.taskError (objGet result "info.error"))]
  | .error _ => []

/-- An element of the array `resultArray` of line 411: a reference or a value. -/
inductive Item where
  | ref (r : MORef)
  | val (v : JsVal)
  deriving DecidableEq, Repr

/-- Lines 419-429, several targets: the result listener on the emitter of `waitForValues` for
the target `ref`, on the pair of `resultArray` and the events emitted so far; `n` is
`MORefs.length`.  The call `push( MORef, x )` appends two elements. -/
def powerOnMulti_onPollResult (n : Nat) (ref : MORef) (result : JsObject)
    (acc : List Item × List (Outcome (List Item))) : List Item × List (Outcome (List Item)) :=
  let resultArray :=
    if objGet result "info.error" = .undefined then
      acc.1 ++ [.ref ref, .val (objGet result "info.state")]
    else
      acc.1 ++ [.ref ref, .val (objGet result "info.error")]
  (resultArray, if resultArray.length = n then acc.2 ++ [.result resultArray] else acc.2)

/-! ## Theorems on `waitForValues` -/

/-- C1, evaluated on the code: one response with two filter sets, the first reporting
`info.state = success` and the second `info.state = running`, makes the poller issue
`DestroyPropertyFilter` twice, and once both destructions have succeeded it has emitted
`result` twice. -/
theorem waitForValues_destroys_once_per_filter_set :
    destroyCalls (onWaitResult (taskParams ⟨"PropertyFilter", "f1"⟩) onCreateFilterResult
        (updateOf "1" [[assign "info.state" "success"], [assign "info.state" "running"]])).state.issued
      = 2
    ∧ (completions (onDestroyResult (onDestroyResult
        (onWaitResult (taskParams ⟨"PropertyFilter", "f1"⟩) onCreateFilterResult
          (updateOf "1" [[assign "info.state" "success"],
            [assign "info.state" "running"]])).state)).emitted).length
      = 2 := by
  decide

/-- C2, evaluated on the code: handling one response with two filter sets, neither of which
reports an expected value, issues two `WaitForUpdatesEx` calls, so two are outstanding. -/
theorem waitForValues_two_waits_from_one_response :
    (onWaitResult (taskParams ⟨"PropertyFilter", "f1"⟩) onCreateFilterResult
        (updateOf "1" [[assign "info.state" "queued"], [assign "info.state" "running"]])).state.issued
      = [.waitForUpdatesEx "", .waitForUpdatesEx "1", .waitForUpdatesEx "1"] := by
  decide

/-- C3, evaluated on the code: a non-empty update set that records no end-wait value (it
reports `info.error` while the end-wait property is `state`) is handled without an exception,
leaves `toCompare` empty and `found` false, and issues no further `WaitForUpdatesEx`. -/
theorem waitForValues_no_repoll_on_empty_toCompare :
    (onWaitResult (taskParams ⟨"PropertyFilter", "f1"⟩) onCreateFilterResult
        (updateOf "1" [[assign "info.error" "fault"]])).error = none
    ∧ (onWaitResult (taskParams ⟨"PropertyFilter", "f1"⟩) onCreateFilterResult
        (updateOf "1" [[assign "info.error" "fault"]])).state.toCompare = []
    ∧ (onWaitResult (taskParams ⟨"PropertyFilter", "f1"⟩) onCreateFilterResult
        (updateOf "1" [[assign "info.error" "fault"]])).state.found = false
    ∧ (onWaitResult (taskParams ⟨"PropertyFilter", "f1"⟩) onCreateFilterResult
        (updateOf "1" [[assign "info.error" "fault"]])).state.issued
      = onCreateFilterResult.issued := by
  decide

/-- C4, evaluated on the code: for every poller state, a response without `returnval` makes
the callback re-issue `WaitForUpdatesEx` with the unchanged version and then raise a
`TypeError` at `result.returnval.version`; a response whose `returnval` has no `filterSet`
likewise re-issues and then raises at `filterSet.objectSet`. -/
theorem waitForValues_empty_returnval_throws (p : PollParams) (s : PollState) :
    onWaitResult p s { returnval := none }
      = .threw { s with issued := s.issued ++ [.waitForUpdatesEx s.version] }
          (.typeError "version")
    ∧ ∀ ver : String,
        onWaitResult p s { returnval := some { version := ver, filterSet := .absent } }
          = .threw { s with issued := s.issued ++ [.waitForUpdatesEx s.version], version := ver }
              (.typeError "objectSet") :=
  ⟨rfl, fun _ => rfl⟩

/-- The one empty update set that is handled without an exception, a `filterSet` that is the
empty array: the callback re-issues `WaitForUpdatesEx` with the unchanged version, then stores
the version of the response, and records and emits nothing. -/
theorem onWaitResult_empty_filterSet_array (p : PollParams) (s : PollState) (ver : String) :
    onWaitResult p s { returnval := some { version := ver, filterSet := .many [] } }
      = .done { s with issued := s.issued ++ [.waitForUpdatesEx s.version], version := ver } :=
  rfl

/-- The end-wait property `state` occurs in the name `info.state`. -/
theorem indexOf_state_in_info_state : indexOfGe0 "info.state" "state" = true := by decide

/-- The filter property `info.state` occurs in the name `info.state`. -/
theorem indexOf_info_state_in_info_state : indexOfGe0 "info.state" "info.state" = true := by
  decide

/-- The filter property `info.error` does not occur in the name `info.state`. -/
theorem indexOf_info_error_in_info_state : indexOfGe0 "info.state" "info.error" = false := by
  decide

/-- One step of the task poll: from a state where nothing was found and the accumulators hold
at most the keys `state` and `info.state`, a report of `info.state = v` is handled without an
exception and leaves `afterStateUpdate`. -/
theorem onWaitResult_stateUpdate (f : MORef) (s : PollState) (tok v : String)
    (hf : s.found = false)
    (htc : s.toCompare = [] ∨ ∃ x, s.toCompare = [("state", x)])
    (hfr : s.finalReturnVals = [] ∨ ∃ x, s.finalReturnVals = [("info.state", x)]) :
    onWaitResult (taskParams f) s (stateUpdate tok v) = .done (afterStateUpdate f s tok v) := by
  obtain ⟨ver, fnd, tc, frv, iss, em⟩ := s
  simp only at hf htc hfr
  subst hf
  have h1 := indexOf_state_in_info_state
  have h2 := indexOf_info_state_in_info_state
  have h3 := indexOf_info_error_in_info_state
  by_cases hv : v ∈ ["success", "error"]
  · rcases htc with rfl | ⟨x, rfl⟩ <;> rcases hfr with rfl | ⟨y, rfl⟩ <;>
      simp [onWaitResult, stateUpdate, updateOf, assign, resultIsEmpty, Field.isEmpty,
        Field.toArray, forEach, onFilterSet, onObjSet, onChangeSet, recordProps, taskParams,
        Arg.toArray, h1, h2, h3, objAssign, Run.andThen, terminationCheck, scanKey,
        JsVal.dollarValue, expectedHas, destroyIfFound, waitForUpdates, afterStateUpdate, hv]
  · rcases htc with rfl | ⟨x, rfl⟩ <;> rcases hfr with rfl | ⟨y, rfl⟩ <;>
      simp [onWaitResult, stateUpdate, updateOf, assign, resultIsEmpty, Field.isEmpty,
        Field.toArray, forEach, onFilterSet, onObjSet, onChangeSet, recordProps, taskParams,
        Arg.toArray, h1, h2, h3, objAssign, Run.andThen, terminationCheck, scanKey,
        JsVal.dollarValue, expectedHas, destroyIfFound, waitForUpdates, afterStateUpdate, hv]

/-- A run of the task poll over reports of `info.state` none of which is an expected value:
nothing is found, the accumulators keep their one-key shape, every report has issued one
`WaitForUpdatesEx` with the token of that report, and nothing was emitted. -/
theorem pollRun_stateUpdates (f : MORef) (prior : List (String × String))
    (hprior : ∀ e ∈ prior, e.2 ∉ ["success", "error"]) (s : PollState)
    (hf : s.found = false)
    (htc : s.toCompare = [] ∨ ∃ x, s.toCompare = [("state", x)])
    (hfr : s.finalReturnVals = [] ∨ ∃ x, s.finalReturnVals = [("info.state", x)]) :
    (pollRun (taskParams f) s (prior.map (fun e => stateUpdate e.1 e.2))).found = false
    ∧ ((pollRun (taskParams f) s (prior.map (fun e => stateUpdate e.1 e.2))).toCompare = []
        ∨ ∃ x, (pollRun (taskParams f) s
            (prior.map (fun e => stateUpdate e.1 e.2))).toCompare = [("state", x)])
    ∧ ((pollRun (taskParams f) s (prior.map (fun e => stateUpdate e.1 e.2))).finalReturnVals = []
        ∨ ∃ x, (pollRun (taskParams f) s
            (prior.map (fun e => stateUpdate e.1 e.2))).finalReturnVals = [("info.state", x)])
    ∧ (pollRun (taskParams f) s (prior.map (fun e => stateUpdate e.1 e.2))).issued
        = s.issued ++ prior.map (fun e => Command.waitForUpdatesEx e.1)
    ∧ (pollRun (taskParams f) s (prior.map (fun e => stateUpdate e.1 e.2))).emitted
        = s.emitted := by
  induction prior generalizing s with
  | nil => exact ⟨hf, htc, hfr, by simp [pollRun], rfl⟩
  | cons e rest ih =>
    have he : e.2 ∉ ["success", "error"] := hprior e (List.mem_cons_self _ _)
    have hrest : ∀ x ∈ rest, x.2 ∉ ["success", "error"] :=
      fun x hx => hprior x (List.mem_cons_of_mem _ hx)
    have hstep := onWaitResult_stateUpdate f s e.1 e.2 hf htc hfr
    have ih1 := ih hrest (afterStateUpdate f s e.1 e.2)
      (by simp [afterStateUpdate, he]) (Or.inr ⟨_, rfl⟩) (Or.inr ⟨_, rfl⟩)
    simp only [List.map_cons, pollRun, hstep, Run.state]
    refine ⟨ih1.1, ih1.2.1, ih1.2.2.1, ?_, ?_⟩
    · rw [ih1.2.2.2.1]; simp [afterStateUpdate, he]
    · rw [ih1.2.2.2.2]; simp [afterStateUpdate]

/-- C5: in the poll `powerOnVMByMORef` starts (filterProps `["info.state","info.error"]`,
endWaitProps `"state"`, expectedVals `["success","error"]`), after any prior reports of
`info.state` with values that are not expected, a report of `info.state = v` is handled
without an exception and recorded under the end-wait key `state`; when `v` is not expected the
poller issues one `WaitForUpdatesEx` with the token of the report and emits nothing; when `v`
is expected it issues `DestroyPropertyFilter`, and the result emitted once the destruction
succeeds is the map with the single key `info.state`, bound to that value, so without a key
`info.error`. -/
theorem powerOn_poll_state_update (f : MORef) (prior : List (String × String)) (tok v : String)
    (hprior : ∀ e ∈ prior, e.2 ∉ ["success", "error"]) :
    (onWaitResult (taskParams f) (priorState f prior) (stateUpdate tok v)).error = none
    ∧ objGet (onWaitResult (taskParams f) (priorState f prior)
        (stateUpdate tok v)).state.toCompare "state" = .node v
    ∧ (v ∉ ["success", "error"] →
        (onWaitResult (taskParams f) (priorState f prior) (stateUpdate tok v)).state.issued
          = (priorState f prior).issued ++ [.waitForUpdatesEx tok]
        ∧ (onWaitResult (taskParams f) (priorState f prior) (stateUpdate tok v)).state.emitted
          = [])
    ∧ (v ∈ ["success", "error"] →
        (onWaitResult (taskParams f) (priorState f prior) (stateUpdate tok v)).state.issued
          = (priorState f prior).issued ++ [.destroyPropertyFilter f]
        ∧ (onDestroyResult (onWaitResult (taskParams f) (priorState f prior)
            (stateUpdate tok v)).state).emitted
          = [.result [("info.state", .node v)]]
        ∧ objHas [("info.state", JsVal.node v)] "info.error" = false) := by
  have hinv := pollRun_stateUpdates f prior hprior onCreateFilterResult rfl
    (Or.inl rfl) (Or.inl rfl)
  have hstep := onWaitResult_stateUpdate f (priorState f prior) tok v hinv.1 hinv.2.1 hinv.2.2.1
  have hem : (priorState f prior).emitted = [] := hinv.2.2.2.2
  rw [hstep]
  refine ⟨rfl, ?_, ?_, ?_⟩
  · simp [Run.state, afterStateUpdate, objGet]
  · intro hv
    simp [Run.state, afterStateUpdate, hv, hem]
  · intro hv
    refine ⟨?_, ?_, by simp [objHas]⟩
    · simp [Run.state, afterStateUpdate, hv]
    · simp [Run.state, afterStateUpdate, onDestroyResult, hem]

/-- The scenario of C5: poll 1 reports `running`, poll 2 reports `success`; the result emitted
after the destruction is the map with `info.state` bound to `success` and nothing else. -/
theorem powerOn_poll_state_update_witness :
    (∀ e ∈ [("1", "running")], e.2 ∉ ["success", "error"])
    ∧ (onDestroyResult (onWaitResult (taskParams ⟨"PropertyFilter", "f1"⟩)
        (priorState ⟨"PropertyFilter", "f1"⟩ [("1", "running")])
        (stateUpdate "2" "success")).state).emitted
      = [.result [("info.state", .node "success")]] :=
  ⟨by decide,
    ((powerOn_poll_state_update ⟨"PropertyFilter", "f1"⟩ [("1", "running")] "2" "success"
      (by decide)).2.2.2 (by decide)).2.1⟩

/-- A loop whose callback ends normally on the first element goes on with the rest. -/
theorem forEach_cons_done {σ α : Type} (f : σ → α → Run σ) (s s1 : σ) (a : α)
    (rest : List α) (h : f s a = .done s1) :
    forEach f s (a :: rest) = forEach f s1 rest := by
  simp [forEach, h]

/-- The body of the scan on an entry whose `'$value'` can be read: `found` absorbs the match,
and the last key re-polls when nothing was found. -/
theorem scanKey_readable (p : PollParams) (n : Nat) (sc : Scan) (e : String × JsVal)
    (hre : entryReadable e = true) :
    scanKey p n sc e
      = .done
          { st :=
              if sc.compared + 1 = n ∧ (sc.st.found || entryMatches p e) = false then
                waitForUpdates { sc.st with found := sc.st.found || entryMatches p e }
              else { sc.st with found := sc.st.found || entryMatches p e }
            compared := sc.compared + 1 } := by
  obtain ⟨key, val⟩ := e
  cases val with
  | undefined => simp [entryReadable, JsVal.dollarValue] at hre
  | str t =>
    cases hfd : sc.st.found <;>
      simp [scanKey, JsVal.dollarValue, expectedHas, entryMatches, hfd]
  | node t =>
    cases hfd : sc.st.found <;> by_cases hm : t ∈ p.expectedVals <;>
      simp [scanKey, JsVal.dollarValue, expectedHas, entryMatches, hfd, hm]

/-- The scan of lines 330-340 from an intermediate counter: it ends normally, and over a
non-empty remainder it leaves `afterScan`. -/
theorem forEach_scanKey (p : PollParams) (n : Nat) (l : List (String × JsVal))
    (st : PollState) (k : Nat) (hk : k + l.length = n)
    (hread : ∀ e ∈ l, entryReadable e = true) :
    forEach (scanKey p n) { st := st, compared := k } l
      = .done (if l = [] then { st := st, compared := k }
          else { st := afterScan p st l, compared := n }) := by
  induction l generalizing st k with
  | nil => simp [forEach]
  | cons e rest ih =>
    have hre : entryReadable e = true := hread e (List.mem_cons_self _ _)
    have hrest : ∀ x ∈ rest, entryReadable x = true :=
      fun x hx => hread x (List.mem_cons_of_mem _ hx)
    rw [forEach_cons_done _ _ _ _ _ (scanKey_readable p n _ e hre)]
    cases rest with
    | nil =>
      simp only [List.length_cons, List.length_nil] at hk
      cases hfd : st.found <;> cases hm : entryMatches p e <;>
        simp [forEach, afterScan, hk, hfd, hm]
    | cons e2 rest2 =>
      have hne : ¬ k + 1 = n := by
        simp only [List.length_cons] at hk
        omega
      have hk2 : (k + 1) + (e2 :: rest2).length = n := by
        simp only [List.length_cons] at hk ⊢
        omega
      simp only [hne, false_and, if_false]
      rw [ih _ _ hk2 hrest]
      simp only [afterScan, List.any_cons, Bool.or_assoc, if_neg (List.cons_ne_nil _ _)]

/-- Lines 327-341 in closed form, when every recorded value can be read: nothing happens when
`toCompare` is empty or `found` already holds; otherwise `found` is set when some recorded
value is expected, and one `WaitForUpdatesEx` is issued when none is. -/
theorem terminationCheck_eq (p : PollParams) (s : PollState)
    (hread : ∀ e ∈ s.toCompare, entryReadable e = true) :
    terminationCheck p s
      = .done (if s.toCompare = [] ∨ s.found = true then s else afterScan p s s.toCompare) := by
  unfold terminationCheck
  by_cases hc : 0 < s.toCompare.length ∧ s.found = false
  · have hne : s.toCompare ≠ [] := by
      intro h
      rw [h] at hc
      simp at hc
    rw [if_pos hc, forEach_scanKey p _ _ _ 0 (by simp) hread]
    simp [hne, hc.2]
  · rw [if_neg hc]
    have : s.toCompare = [] ∨ s.found = true := by
      by_cases h : s.toCompare = []
      · exact Or.inl h
      · right
        have : 0 < s.toCompare.length := List.length_pos.mpr h
        cases hfd : s.found
        · exact absurd ⟨this, hfd⟩ hc
        · rfl
    simp [this]

/-- Lines 288-354 in closed form for one filter set whose changes are recorded without an
exception into readable values: the poller re-polls once when `toCompare` is not empty and
holds no expected value, issues nothing when `toCompare` is empty, and issues
`DestroyPropertyFilter` when `found` holds, also when it held before. -/
theorem onFilterSet_eq (p : PollParams) (s s1 : PollState) (fs : FilterUpdate)
    (hrec : forEach (onObjSet p) s fs.objectSet.toArray = .done s1)
    (hread : ∀ e ∈ s1.toCompare, entryReadable e = true) :
    onFilterSet p s (some fs)
      = .done (destroyIfFound p
          (if s1.toCompare = [] ∨ s1.found = true then s1
            else afterScan p s1 s1.toCompare)) := by
  simp [onFilterSet, hrec, Run.andThen, terminationCheck_eq p s1 hread]

/-- A reflexive and transitive relation that every run of the callback keeps is kept by the
whole loop, whether it ends normally or with an exception. -/
theorem forEach_state_rel {σ α : Type} (R : σ → σ → Prop) (hrefl : ∀ s, R s s)
    (htrans : ∀ a b c, R a b → R b c → R a c) (f : σ → α → Run σ)
    (hf : ∀ s a, R s (f s a).state) (s : σ) (l : List α) :
    R s (forEach f s l).state := by
  induction l generalizing s with
  | nil => exact hrefl s
  | cons a rest ih =>
    have h1 := hf s a
    unfold forEach
    cases hfa : f s a with
    | done s1 =>
      rw [hfa] at h1
      exact htrans _ _ _ h1 (ih s1)
    | threw s1 e =>
      rw [hfa] at h1
      exact h1

/-- Recording the changes of a filter set (lines 289-325) leaves `version`, `found` and the
two logs as they are. -/
theorem forEach_onObjSet_sameControl (p : PollParams) (s : PollState)
    (l : List (Option ObjectUpdate)) :
    SameControl s (forEach (onObjSet p) s l).state := by
  have hrefl : ∀ s, SameControl s s := fun s => ⟨rfl, rfl, rfl, rfl⟩
  have htrans : ∀ a b c, SameControl a b → SameControl b c → SameControl a c :=
    fun a b c h1 h2 =>
      ⟨h2.1.trans h1.1, h2.2.1.trans h1.2.1, h2.2.2.1.trans h1.2.2.1, h2.2.2.2.trans h1.2.2.2⟩
  have hchange : ∀ s (x : Option PropertyChange), SameControl s (onChangeSet p s x).state := by
    intro s x
    cases x <;> exact ⟨rfl, rfl, rfl, rfl⟩
  refine forEach_state_rel SameControl hrefl htrans _ ?_ s l
  intro s x
  cases x with
  | none => exact ⟨rfl, rfl, rfl, rfl⟩
  | some o =>
    by_cases hk : o.kind = "modify" ∨ o.kind = "enter" ∨ o.kind = "leave"
    · simp only [onObjSet, if_pos hk]
      exact forEach_state_rel SameControl hrefl htrans _ hchange s _
    · simp only [onObjSet, if_neg hk]
      exact ⟨rfl, rfl, rfl, rfl⟩

/-- A response whose `filterSet` is one object, handled from a state where nothing was found,
with its changes recorded without an exception into readable values: the callback ends
normally and issues at most one command, namely nothing when `toCompare` is empty,
`DestroyPropertyFilter` when a recorded value is expected, and otherwise `WaitForUpdatesEx`
with the version token of the response. -/
theorem onWaitResult_one_filter_set (p : PollParams) (s s1 : PollState) (ver : String)
    (fs : FilterUpdate) (hf : s.found = false)
    (hrec : forEach (onObjSet p) { s with version := ver } fs.objectSet.toArray = .done s1)
    (hread : ∀ e ∈ s1.toCompare, entryReadable e = true) :
    (onWaitResult p s { returnval := some { version := ver, filterSet := .one fs } }).error
      = none
    ∧ (onWaitResult p s
        { returnval := some { version := ver, filterSet := .one fs } }).state.issued
      = s.issued ++
          (if s1.toCompare = [] then []
            else if s1.toCompare.any (entryMatches p) = true then
              [.destroyPropertyFilter p.filterSpecRef]
            else [.waitForUpdatesEx ver]) := by
  have hsame := forEach_onObjSet_sameControl p { s with version := ver } fs.objectSet.toArray
  rw [hrec] at hsame
  obtain ⟨hver, hfound, hissued, -⟩ := hsame
  simp only [Run.state] at hver hfound hissued
  have hfs := onFilterSet_eq p { s with version := ver } s1 fs hrec hread
  have hf1 : s1.found = false := by rw [hfound]; exact hf
  simp only [onWaitResult, resultIsEmpty, Field.isEmpty, Field.toArray, forEach,
    Bool.false_eq_true, if_false, hfs]
  by_cases hemp : s1.toCompare = []
  · simp [Run.error, Run.state, destroyIfFound, hemp, hf1, hissued]
  · by_cases hany : s1.toCompare.any (entryMatches p) = true
    · simp [Run.error, Run.state, destroyIfFound, afterScan, hemp, hf1, hissued, hany]
    · simp only [Bool.not_eq_true] at hany
      simp [Run.error, Run.state, destroyIfFound, afterScan, waitForUpdates, hemp, hf1,
        hissued, hany, hver]

/-! ## Theorems on the property specification -/

/-- C8, refuted as stated: for the empty path the single-path selector yields the fetch-all
specification and the one-element list yields a specification with `pathSet = [""]`. -/
theorem propertySpec_empty_path_differs :
    getMORefsInContainerByTypeAndPropertyArray_propertySpec "VirtualMachine" (.path "")
      ≠ getMORefsInContainerByTypeAndPropertyArray_propertySpec "VirtualMachine" (.paths [""]) := by
  decide

/-- C8, amended: for every type tag `t` and every non-empty path `p`, the specification built
from the single-path selector `p` is the one built from the list `[p]`, namely type `t`,
`all = false`, `pathSet = [p]`. -/
theorem propertySpec_single_path_eq_singleton (t p : String) (hp : p ≠ "") :
    getMORefsInContainerByTypeAndPropertyArray_propertySpec t (.path p)
      = getMORefsInContainerByTypeAndPropertyArray_propertySpec t (.paths [p])
    ∧ getMORefsInContainerByTypeAndPropertyArray_propertySpec t (.path p)
      = { xsiType := "PropertySpec", type := t, all := false, pathSet := some [p] } := by
  simp [getMORefsInContainerByTypeAndPropertyArray_propertySpec, hp]

/-- The amended C8 at the selector `getVMinContainerPowerState` uses. -/
theorem propertySpec_single_path_eq_singleton_witness :
    "summary" ≠ ""
    ∧ getMORefsInContainerByTypeAndPropertyArray_propertySpec "VirtualMachine" (.path "summary")
      = getMORefsInContainerByTypeAndPropertyArray_propertySpec "VirtualMachine"
          (.paths ["summary"]) :=
  ⟨by decide, (propertySpec_single_path_eq_singleton "VirtualMachine" "summary" (by decide)).1⟩

/-! ## Theorems on `getVMinContainerPowerState` -/

/-- The loop of lines 181-190 from an intermediate state: when the entries pushed so far and
the entries to come add up to `n`, the loop pushes the entries in order and emits the full
array once, at its last element. -/
theorem foldl_pushPowerState (n : Nat) (rest : List ObjectContent)
    (pre : List PowerStateEntry) (ev : List (Event (List PowerStateEntry)))
    (hn : pre.length + rest.length = n) :
    rest.foldl (pushPowerState n) (pre, ev)
      = (pre ++ rest.map powerStateEntry,
          if rest = [] then ev else ev ++ [.result (pre ++ rest.map powerStateEntry)]) := by
  induction rest generalizing pre ev with
  | nil => simp
  | cons vm rest ih =>
    simp only [List.foldl_cons, pushPowerState]
    have hlen : (pre ++ [powerStateEntry vm]).length + rest.length = n := by
      simp only [List.length_append, List.length_cons, List.length_nil] at hn ⊢
      omega
    rw [ih _ _ hlen]
    cases rest with
    | nil =>
      simp only [List.length_append, List.length_cons, List.length_nil] at hn ⊢
      simp [hn]
    | cons vm2 rest2 =>
      have hne : ¬ pre.length + 1 = n := by
        simp only [List.length_cons] at hn
        omega
      simp [hne]

/-- For a result with at least one object, `getVMinContainerPowerState` emits `result` once,
with one entry per object in the order of the result. -/
theorem getVMinContainerPowerState_onResult_nonempty (data : List ObjectContent)
    (h : data ≠ []) :
    getVMinContainerPowerState_onResult (.objects data)
      = [.result (data.map powerStateEntry)] := by
  simp [getVMinContainerPowerState_onResult, foldl_pushPowerState data.length data [] [], h]

/-- Two virtual machines give two entries. -/
theorem getVMinContainerPowerState_onResult_nonempty_witness :
    getVMinContainerPowerState_onResult (.objects
        [⟨⟨"VirtualMachine", "4"⟩, ⟨"testvm-win", "poweredOff"⟩⟩,
          ⟨⟨"VirtualMachine", "5"⟩, ⟨"testvm-lin", "poweredOn"⟩⟩])
      = [.result [⟨⟨"VirtualMachine", "4"⟩, "testvm-win", "poweredOff"⟩,
          ⟨⟨"VirtualMachine", "5"⟩, "testvm-lin", "poweredOn"⟩]] :=
  getVMinContainerPowerState_onResult_nonempty _ (by simp)

/-- C9, evaluated on the code: for a result whose `objects` array is empty the callback emits
nothing, neither a result nor an error, while a result without own properties gives the empty
list. -/
theorem getVMinContainerPowerState_zero_objects_emits_nothing :
    getVMinContainerPowerState_onResult (.objects []) = []
    ∧ getVMinContainerPowerState_onResult .empty = [.result []] := by
  decide

/-! ## Theorems on `powerOnVMByMORef` -/

/-- C6, evaluated on the code: for every non-empty array of targets the call raises a
`TypeError` at the first element, issues no command and returns no emitter; and the result
listener of lines 419-429, run for the first of two targets, already emits the aggregate,
which holds that target alone. -/
theorem powerOnVMByMORef_list_raises (r : MORef) (rest : List MORef) :
    powerOnVMByMORef (.list (r :: rest))
      = { issued := [], thrown := some (.typeError "runCommand"), returnedEmitter := false }
    ∧ (powerOnMulti_onPollResult 2 r [("info.state", .node "success")] ([], [])).2
      = [.result [.ref r, .val (.node "success")]] := by
  constructor
  · rfl
  · simp [powerOnMulti_onPollResult, objGet]

/-- C7, evaluated on the code: with an absent argument or an empty array no command is
issued, the `emit` of `'error'` on the listener-less emitter raises, and no emitter is
returned. -/
theorem powerOnVMByMORef_no_targets :
    powerOnVMByMORef .absent
      = { issued := [],
          thrown := some (.unhandledError "No ManagedObjectReference(s) given!"),
          returnedEmitter := false }
    ∧ powerOnVMByMORef (.list [])
      = { issued := [],
          thrown := some (.unhandledError "No ManagedObjectReference(s) given!"),
          returnedEmitter := false } := by
  decide

/-- C10, evaluated on the code: an error of `PowerOnVM_Task` is emitted on the returned
emitter, while an error that `waitForValues` emits for a failed `CreateFilter`,
`WaitForUpdatesEx` or `DestroyPropertyFilter` reaches a listener that emits nothing. -/
theorem powerOnVMByMORef_drops_poll_errors (s : PollState) (err : String) :
    (powerOn_onTaskEvent (.error err)).2 = [.error (.transport err)]
    ∧ (onPollCommandError s err).emitted = s.emitted ++ [.error err]
    ∧ powerOn_onPollEvent (.error err) = [] := by
  exact ⟨rfl, rfl, rfl⟩

end NodeVsphere
